import Mathlib

/-!
Shallow embedding of the symbolic-expression core of csympy
(src/src/functions.cpp and src/src/cwrapper.h), covering the node kinds
and operations the specification's claims are about: the `Sin`, `Cos`,
`FunctionSymbol` and `Derivative` node classes with their `__hash__`,
`__eq__`, `compare`, `diff` and `subs` methods, the canonical
constructors `sin`, `cos`, `function_symbol`, a spec-modelled `mul`,
and the spec-modelled `rational_set` of the C wrapper.

Machine integers (`std::size_t`) are modelled as `Nat` reduced modulo
2 ^ 64.  Reference-counted pointers are modelled by the tree values
themselves; the C++ pointer-equality test `arg == arg_` in `subs` is
modelled as structural equality (pointer equality implies structural
equality, and the code only relies on the structural content of the
test).
-/

namespace CSymPy

/-- The size of `std::size_t` values: hashes live in `Fin` range `2 ^ 64`,
modelled as `Nat` taken `% sizeTMod`. -/
def sizeTMod : Nat := 2 ^ 64

/-- The closed set of node kinds the claims mention.  `Integer`,
`Rational` and `Symbol` are the leaves (their classes live in files not
under src/; their structure is taken from the spec's data model:
`Integer` an arbitrary-precision signed integer, `Rational` a reduced
ratio, `Symbol` a name).  `Mul` is the n-ary product node referenced by
`Sin::diff`/`Cos::diff` (its class is also outside src/; the spec
describes it as a canonically sorted operand list).  `Sin`, `Cos`,
`FunctionSymbol` and `Derivative` are the classes of
src/src/functions.cpp; a `Derivative`'s variable list is a list of
symbols, identified by their names. -/
inductive Basic : Type where
  | Integer : Int → Basic
  | Rational : Int → Int → Basic
  | Symbol : String → Basic
  | Mul : List Basic → Basic
  | Sin : Basic → Basic
  | Cos : Basic → Basic
  | FunctionSymbol : String → Basic → Basic
  | Derivative : Basic → List String → Basic

/-- The global canonical zero node (`zero` in the source, an `Integer 0`
singleton defined outside src/, modelled from the spec's "Global,
read-only singleton nodes"). -/
def zero : Basic := .Integer 0

/-- The global canonical one node. -/
def one : Basic := .Integer 1

/-- The global canonical minus-one node. -/
def minus_one : Basic := .Integer (-1)

mutual

/-- `__eq__`: structural equality.  The `Sin`, `Cos`, `FunctionSymbol`
and `Derivative` cases are from src/src/functions.cpp (same concrete
kind and equal children; `FunctionSymbol` also compares names,
`Derivative` compares the variable lists element-wise via
`vec_basic_eq`).  The leaf and `Mul` cases are modelled from the spec:
"same concrete kind and all corresponding children are structurally
equal". -/
def eqB : Basic → Basic → Bool
  | .Integer i, .Integer j => i = j
  | .Rational n1 d1, .Rational n2 d2 => n1 = n2 && d1 = d2
  | .Symbol s1, .Symbol s2 => s1 = s2
  | .Mul l1, .Mul l2 => vec_basic_eq l1 l2
  | .Sin a1, .Sin a2 => eqB a1 a2
  | .Cos a1, .Cos a2 => eqB a1 a2
  | .FunctionSymbol n1 a1, .FunctionSymbol n2 a2 => n1 = n2 && eqB a1 a2
  | .Derivative a1 x1, .Derivative a2 x2 => eqB a1 a2 && x1 = x2
  | _, _ => false

/-- `vec_basic_eq`: element-wise structural equality of operand lists
(defined outside src/, modelled from its use in `Derivative::__eq__`). -/
def vec_basic_eq : List Basic → List Basic → Bool
  | [], [] => true
  | a :: as, b :: bs => eqB a b && vec_basic_eq as bs
  | _, _ => false

end

mutual

/-- `eq(a, b)` is true exactly on structurally identical trees. -/
theorem eqB_iff_eq : ∀ a b : Basic, eqB a b = true ↔ a = b
  | .Integer i, b => by
    cases b <;> simp [eqB]
  | .Rational n d, b => by
    cases b <;> simp [eqB]
  | .Symbol s, b => by
    cases b <;> simp [eqB]
  | .Mul l, b => by
    cases b <;> simp [eqB]
    case Mul m => exact vec_basic_eq_iff l m
  | .Sin a, b => by
    cases b <;> simp [eqB]
    case Sin a2 => exact eqB_iff_eq a a2
  | .Cos a, b => by
    cases b <;> simp [eqB]
    case Cos a2 => exact eqB_iff_eq a a2
  | .FunctionSymbol n a, b => by
    cases b <;> simp [eqB]
    case FunctionSymbol n2 a2 => intro _; exact eqB_iff_eq a a2
  | .Derivative a x, b => by
    cases b
    case Derivative a2 x2 =>
      simp only [eqB, Bool.and_eq_true, decide_eq_true_eq, Basic.Derivative.injEq]
      rw [eqB_iff_eq a a2]
    all_goals simp [eqB]

/-- `vec_basic_eq` is element-wise list equality. -/
theorem vec_basic_eq_iff : ∀ l m : List Basic, vec_basic_eq l m = true ↔ l = m
  | [], m => by cases m <;> simp [vec_basic_eq]
  | _ :: _, [] => by simp [vec_basic_eq]
  | a :: as, b :: bs => by
    rw [show vec_basic_eq (a :: as) (b :: bs) = (eqB a b && vec_basic_eq as bs) from rfl,
      Bool.and_eq_true, eqB_iff_eq a b, vec_basic_eq_iff as bs, List.cons.injEq]

end

instance : DecidableEq Basic := fun a b => decidable_of_iff (eqB a b = true) (eqB_iff_eq a b)

/-- The fixed per-kind rank used by `Basic::__cmp__` to order nodes of
different concrete kinds (basic.cpp is not under src/; modelled from the
spec: "different kinds are ranked by a fixed per-kind rank").  The exact
numbering is irrelevant to every claim; only distinctness per kind
matters. -/
def typeRank : Basic → Nat
  | .Integer _ => 0
  | .Rational _ _ => 1
  | .Symbol _ => 2
  | .Mul _ => 3
  | .Sin _ => 4
  | .Cos _ => 5
  | .FunctionSymbol _ _ => 6
  | .Derivative _ _ => 7

/-- Three-way comparison of strings, as `name_ < s.name_ ? -1 : 1` after
an equality test (the pattern of `FunctionSymbol::compare`). -/
def cmpStr (s1 s2 : String) : Int :=
  if s1 = s2 then 0 else if s1 < s2 then -1 else 1

/-- `vec_basic_compare` restricted to symbol vectors, as used by
`Derivative::compare` (defined outside src/; modelled from the spec:
"same-kind ties broken by recursive child comparison, left-to-right").
Lexicographic; a proper prefix is smaller. -/
def cmpStrList : List String → List String → Int
  | [], [] => 0
  | [], _ :: _ => -1
  | _ :: _, [] => 1
  | a :: as, b :: bs =>
    let c := cmpStr a b
    if c ≠ 0 then c else cmpStrList as bs

mutual

/-- `Basic::__cmp__` (basic.cpp, not under src/; modelled from the spec):
nodes of different kinds are ordered by `typeRank`; nodes of the same
kind are passed to the per-kind virtual `compare`.  The
`Option.getD 0` is never exercised: same rank implies the per-kind
compare succeeds, since distinct kinds have distinct ranks. -/
def cmpB (a b : Basic) : Int :=
  if typeRank a < typeRank b then -1
  else if typeRank b < typeRank a then 1
  else (compareSame a b).getD 0
termination_by (sizeOf a, 1)

/-- The per-kind virtual `compare` methods.  `none` models the
`CSYMPY_ASSERT(is_a<Kind>(o))` guard firing, i.e. a call on an argument
of a different concrete kind.  `Sin::compare`, `Cos::compare`,
`FunctionSymbol::compare` and `Derivative::compare` are transcribed from
src/src/functions.cpp — note that `Sin::compare` and `Cos::compare`
really do return `arg_->__cmp__(s)` with `s` the WHOLE other node, not
`s.arg_`.  The leaf and `Mul` cases are outside src/ and modelled from
the spec ("same kind compares recursively by children"). -/
def compareSame (a b : Basic) : Option Int :=
  match a, b with
  | .Integer i, .Integer j => some (if i < j then -1 else if j < i then 1 else 0)
  | .Rational n1 d1, .Rational n2 d2 =>
    some (if n1 ≠ n2 then (if n1 < n2 then -1 else 1)
          else if d1 < d2 then -1 else if d2 < d1 then 1 else 0)
  | .Symbol s1, .Symbol s2 => some (cmpStr s1 s2)
  | .Mul l1, .Mul l2 => some (vec_basic_compare l1 l2)
  | .Sin a1, .Sin a2 => some (cmpB a1 (.Sin a2))
  | .Cos a1, .Cos a2 => some (cmpB a1 (.Cos a2))
  | .FunctionSymbol n1 a1, .FunctionSymbol n2 a2 =>
    some (if n1 = n2 then cmpB a1 a2 else if n1 < n2 then -1 else 1)
  | .Derivative a1 x1, .Derivative a2 x2 =>
    some (let c := cmpB a1 a2; if c ≠ 0 then c else cmpStrList x1 x2)
  | _, _ => none
termination_by (sizeOf a, 0)

/-- `vec_basic_compare` on general operand lists (outside src/; modelled
from the spec), used for `Mul` operands: left-to-right recursive child
comparison, a proper prefix being smaller. -/
def vec_basic_compare : List Basic → List Basic → Int
  | [], [] => 0
  | [], _ :: _ => -1
  | _ :: _, [] => 1
  | a :: as, b :: bs =>
    let c := cmpB a b
    if c ≠ 0 then c else vec_basic_compare as bs
termination_by l _ => (sizeOf l, 2)

end

/-- boost-style `hash_combine` (declared in basic.h, not under src/;
modelled from the spec's "deterministic structural hash combining"):
`seed ^= v + 0x9e3779b9 + (seed << 6) + (seed >> 2)` on a 64-bit
`std::size_t`. -/
def hash_combine (seed v : Nat) : Nat :=
  (seed ^^^ ((v + 0x9e3779b9 + seed * 64 + seed / 4) % sizeTMod)) % sizeTMod

/-- Hash of a name string (`std::hash<std::string>` is
implementation-defined; modelled as a deterministic fold over the
characters). -/
def hashStr (s : String) : Nat :=
  s.data.foldl (fun h c => (h * 31 + c.toNat) % sizeTMod) 0

/-- Hash of an arbitrary-precision integer value (outside src/; modelled
as the value reduced into the 64-bit range, two's-complement style). -/
def hashInt (i : Int) : Nat :=
  (i.emod (2 ^ 64)).toNat % sizeTMod

mutual

/-- The per-kind `__hash__` methods.  `Sin::__hash__`, `Cos::__hash__`,
`FunctionSymbol::__hash__` and `Derivative::__hash__` are transcribed
from src/src/functions.cpp: every one of them starts from `seed = 0`
(no type tag) and `hash_combine`s the children (and, for
`FunctionSymbol`, the name) into it.  The leaf and `Mul` cases are
outside src/ and modelled from the spec's "deterministic structural
hash". -/
def hashB : Basic → Nat
  | .Integer i => hashInt i
  | .Rational n d => hash_combine (hash_combine 0 (hashInt n)) (hashInt d)
  | .Symbol s => hashStr s
  | .Mul l => hashList l 0
  | .Sin a => hash_combine 0 (hashB a)
  | .Cos a => hash_combine 0 (hashB a)
  | .FunctionSymbol n a => hash_combine (hash_combine 0 (hashB a)) (hashStr n)
  | .Derivative a xs => xs.foldl (fun s v => hash_combine s (hashStr v)) (hash_combine 0 (hashB a))

/-- Fold the hashes of a `Mul` operand list into a seed. -/
def hashList : List Basic → Nat → Nat
  | [], seed => seed
  | a :: as, seed => hashList as (hash_combine seed (hashB a))

end

/-- `Sin::is_canonical` from src/src/functions.cpp: a literal integer
zero argument is not canonical (`sin(0)` must have been collapsed by the
constructor); everything else is accepted (`sin(k*pi)` is a documented
TODO). -/
def sin_is_canonical (arg : Basic) : Bool :=
  match arg with
  | .Integer i => if i = 0 then false else true
  | _ => true

/-- `Cos::is_canonical` from src/src/functions.cpp: same rule as
`Sin::is_canonical`. -/
def cos_is_canonical (arg : Basic) : Bool :=
  match arg with
  | .Integer i => if i = 0 then false else true
  | _ => true

/-- The canonical constructor `sin` from src/src/functions.cpp:
`if (eq(arg, zero)) return zero; return rcp(new Sin(arg));`. -/
def sin (arg : Basic) : Basic :=
  if eqB arg zero then zero else .Sin arg

/-- The canonical constructor `cos` from src/src/functions.cpp:
`if (eq(arg, zero)) return one; return rcp(new Cos(arg));`. -/
def cos (arg : Basic) : Basic :=
  if eqB arg zero then one else .Cos arg

/-- The canonical constructor `function_symbol` from
src/src/functions.cpp: always builds the node, no reduction rules. -/
def function_symbol (n : String) (arg : Basic) : Basic :=
  .FunctionSymbol n arg

/-- The exact numeric value of a numeric leaf, `none` on non-numeric
nodes (the Numeric Leaf Kernel lives outside src/; modelled from the
spec). -/
def numericValue : Basic → Option ℚ
  | .Integer i => some (i : ℚ)
  | .Rational n d => some ((n : ℚ) / (d : ℚ))
  | _ => none

/-- Render an exact rational value back as a node: an `Integer` when the
(always reduced, positive) denominator is 1, a `Rational` leaf
otherwise. -/
def qToBasic (q : ℚ) : Basic :=
  if q.den = 1 then .Integer q.num else .Rational q.num (q.den : Int)

/-- Flattening view of a node as a `Mul` operand list ("flatten nested
same-kind subtrees"). -/
def operandsOf : Basic → List Basic
  | .Mul l => l
  | a => [a]

/-- Insert an operand into a list sorted by the total order `cmpB`. -/
def insertSorted (a : Basic) : List Basic → List Basic
  | [] => [a]
  | b :: bs => if cmpB a b ≤ 0 then a :: b :: bs else b :: insertSorted a bs

/-- Sort a commutative operand list by the total order (insertion
sort). -/
def sortOps (l : List Basic) : List Basic :=
  l.foldr insertSorted []

/-- Modelled from the spec: the `mul` canonical constructor (mul.cpp is
not under src/).  Spec: "flatten nested same-kind subtrees, combine
numeric coefficients via the Numeric Leaf Kernel, eliminate identity
elements, sort remaining operands using the total order".  The combined
numeric coefficient is exact; a zero coefficient collapses the product
to `zero`, a coefficient of 1 is the eliminated identity, and a product
with a single remaining operand is that operand itself. -/
def mulCanonical (ops : List Basic) : Basic :=
  let coef : ℚ := ops.foldl (fun c a => c * ((numericValue a).getD 1)) 1
  let rest := sortOps (ops.filter (fun a => (numericValue a).isNone))
  if coef = 0 then zero
  else if coef = 1 then
    match rest with
    | [] => one
    | [a] => a
    | _ => .Mul rest
  else
    match rest with
    | [] => qToBasic coef
    | _ => .Mul (qToBasic coef :: rest)

/-- The binary `mul` entry point used by `Sin::diff` and `Cos::diff`
(outside src/; modelled from the spec as `mulCanonical` over the two
flattened operand lists). -/
def mul (a b : Basic) : Basic :=
  mulCanonical (operandsOf a ++ operandsOf b)

/-- `diff`, dispatching on the node kind; the differentiation variable
is a symbol, identified by its name.  `Sin::diff`, `Cos::diff`,
`FunctionSymbol::diff` and `Derivative::diff` are transcribed from
src/src/functions.cpp.  The leaf cases are outside src/ and modelled
from the spec's diff table (`Integer`/`Rational` give `zero`; a
`Symbol` gives `one` or `zero`).  The spec's diff table has no `Mul`
row and mul.cpp is not under src/: the `Mul` case is modelled as an
unevaluated `Derivative`; no claim depends on it. -/
def diff : Basic → String → Basic
  | .Integer _, _ => zero
  | .Rational _ _, _ => zero
  | .Symbol s, x => if s = x then one else zero
  | .Mul l, x => .Derivative (.Mul l) [x]
  | .Sin a, x => mul (cos a) (diff a x)
  | .Cos a, x => mul (mul minus_one (sin a)) (diff a x)
  | .FunctionSymbol n a, x =>
    if eqB (diff a x) zero then zero
    else .Derivative (.FunctionSymbol n a) [x]
  | .Derivative a xs, x => .Derivative a (xs ++ [x])

/-- A substitution mapping (`map_basic_basic`): a transient mapping from
structural keys to replacement nodes. -/
abbrev SubsDict := List (Basic × Basic)

/-- `subs_dict.find(self)`: look the node itself up among the keys, by
structural equality. -/
def lookupSubs (d : SubsDict) (n : Basic) : Option Basic :=
  (d.find? (fun p => eqB p.1 n)).map (fun p => p.2)

mutual

/-- `subs`.  `Sin::subs` and `Cos::subs` are transcribed from
src/src/functions.cpp: look the node itself up in the mapping; else
substitute into the argument; if the argument is unchanged return the
node itself; else rebuild through the canonical constructor
(`sin`/`cos`).  The remaining kinds inherit `Basic::subs` (basic.cpp is
not under src/; modelled from the spec's four substitution steps:
lookup, recurse into children, return the original when nothing
changed, else rebuild through the canonical constructor). -/
def subs : Basic → SubsDict → Basic
  | n@(.Integer _), d => (lookupSubs d n).getD n
  | n@(.Rational _ _), d => (lookupSubs d n).getD n
  | n@(.Symbol _), d => (lookupSubs d n).getD n
  | .Mul l, d =>
    match lookupSubs d (.Mul l) with
    | some v => v
    | none =>
      let l2 := subsList l d
      if l2 = l then .Mul l else mulCanonical (l2.map operandsOf).flatten
  | .Sin a, d =>
    match lookupSubs d (.Sin a) with
    | some v => v
    | none =>
      let a2 := subs a d
      if a2 = a then .Sin a else sin a2
  | .Cos a, d =>
    match lookupSubs d (.Cos a) with
    | some v => v
    | none =>
      let a2 := subs a d
      if a2 = a then .Cos a else cos a2
  | .FunctionSymbol n a, d =>
    match lookupSubs d (.FunctionSymbol n a) with
    | some v => v
    | none =>
      let a2 := subs a d
      if a2 = a then .FunctionSymbol n a else function_symbol n a2
  | .Derivative a xs, d =>
    match lookupSubs d (.Derivative a xs) with
    | some v => v
    | none =>
      let a2 := subs a d
      if a2 = a then .Derivative a xs else .Derivative a2 xs

/-- Substitute into each element of a `Mul` operand list. -/
def subsList : List Basic → SubsDict → List Basic
  | [], _ => []
  | a :: as, d => subs a d :: subsList as d

end

/-- `is_a_Integer` of the C wrapper (src/src/cwrapper.h): the per-kind
type predicate for `Integer` (implementation outside src/; modelled from
the header's documentation). -/
def is_a_Integer : Basic → Bool
  | .Integer _ => true
  | _ => false

/-- Modelled from the spec: the implementation of `rational_set` is not
under src/ (only its declaration in src/src/cwrapper.h).  Spec: fails
(signals `InvalidRational`, here `none`, matching the header's failure
return code) if either argument is not an integer value or if the
denominator is 0; otherwise reduces to lowest terms, normalizes sign so
the denominator is positive, and returns an `Integer` instead of a
`Rational` when the reduced denominator is 1. -/
def rational_set (i j : Basic) : Option Basic :=
  match i, j with
  | .Integer n, .Integer d =>
    if d = 0 then none
    else
      let q := Rat.divInt n d
      some (if q.den = 1 then .Integer q.num else .Rational q.num (q.den : Int))
  | _, _ => none

/-! ## Helper lemmas -/

/-- `eq` is reflexive. -/
theorem eqB_refl (a : Basic) : eqB a a = true :=
  (eqB_iff_eq a a).mpr rfl

/-- A node is `eq` to the global `zero` exactly when it is the integer
leaf 0. -/
theorem eqB_zero_iff (a : Basic) : eqB a zero = true ↔ a = .Integer 0 := by
  rw [eqB_iff_eq]; rfl

/-! ## Claims -/

/-- C1 (code bug): `Sin::compare` and `Cos::compare` compare the node's
argument against the WHOLE other node (`arg_->__cmp__(s)` with `s` the
other `Sin`/`Cos`), not against the other node's argument, so for the
structurally equal nodes `a = b = Sin(x)` we get `equals(a,b)` but
`compare(a,b) ≠ 0`, violating `compare(a,b)==0 ⇔ equals(a,b)`. -/
theorem sin_cos_compare_breaks_eq_consistency :
    eqB (Basic.Sin (.Symbol "x")) (Basic.Sin (.Symbol "x")) = true ∧
    cmpB (Basic.Sin (.Symbol "x")) (Basic.Sin (.Symbol "x")) ≠ 0 ∧
    eqB (Basic.Cos (.Symbol "x")) (Basic.Cos (.Symbol "x")) = true ∧
    cmpB (Basic.Cos (.Symbol "x")) (Basic.Cos (.Symbol "x")) ≠ 0 := by
  refine ⟨by decide, ?_, by decide, ?_⟩ <;>
    simp [cmpB, compareSame, typeRank]

/-- C10 (confirmed): every per-kind `compare` method's
`CSYMPY_ASSERT(is_a<Kind>(o))` precondition (modelled by `compareSame`
returning `none` on a kind mismatch) is satisfied whenever the fixed
kind-rank dispatch of `__cmp__` has established that the two nodes have
the same rank: same rank implies same concrete kind, and the per-kind
compare succeeds. -/
theorem compare_assert_never_fires (a b : Basic) (h : typeRank a = typeRank b) :
    (compareSame a b).isSome = true := by
  cases a <;> cases b <;> simp_all [typeRank, compareSame]

/-- Witness for C10 at a concrete same-kind pair. -/
theorem compare_assert_never_fires_witness :
    typeRank (Basic.Sin (.Symbol "x")) = typeRank (Basic.Sin (.Symbol "y")) ∧
    (compareSame (Basic.Sin (.Symbol "x")) (Basic.Sin (.Symbol "y"))).isSome = true :=
  ⟨by decide, compare_assert_never_fires _ _ (by decide)⟩

/-- C2 (counterexample): the per-kind `__hash__` methods do NOT start
from distinct type-tagged seeds — `Sin::__hash__` and `Cos::__hash__`
both start from `seed = 0` and combine only the argument's hash, so the
distinct nodes `Sin(x)` and `Cos(x)` hash identically. -/
theorem sin_cos_hash_collision :
    hashB (Basic.Sin (.Symbol "x")) = hashB (Basic.Cos (.Symbol "x")) ∧
    Basic.Sin (.Symbol "x") ≠ Basic.Cos (.Symbol "x") :=
  ⟨rfl, by decide⟩

/-- C2 (amended): every `__hash__` of functions.cpp starts from the
untagged seed 0 and combines the children's hashes recursively
(`FunctionSymbol` also combines its name, `Derivative` folds over its
variable list); the hash is deterministic and structural, but nodes of
different kinds with equal children may hash equal — in particular
`Sin(x)` and `Cos(x)` collide. -/
theorem hash_combines_children_from_zero_seed :
    (∀ a, hashB (.Sin a) = hash_combine 0 (hashB a)) ∧
    (∀ a, hashB (.Cos a) = hash_combine 0 (hashB a)) ∧
    (∀ n a, hashB (.FunctionSymbol n a) = hash_combine (hash_combine 0 (hashB a)) (hashStr n)) ∧
    (∀ a xs, hashB (.Derivative a xs) =
      xs.foldl (fun s v => hash_combine s (hashStr v)) (hash_combine 0 (hashB a))) ∧
    hashB (Basic.Sin (.Symbol "x")) = hashB (Basic.Cos (.Symbol "x")) :=
  ⟨fun _ => rfl, fun _ => rfl, fun _ _ => rfl, fun _ _ => rfl, rfl⟩

/-- C3 (confirmed): `FunctionSymbol::diff` returns `zero` when the
argument's derivative is `zero` and otherwise an unevaluated
`Derivative` over the `FunctionSymbol` node with variable list `[x]`;
`Derivative::diff` appends the variable to the existing list instead of
nesting, so differentiating `f(x)` twice gives the list `[x, x]`. -/
theorem functionsymbol_derivative_diff :
    (∀ n u x, eqB (diff u x) zero = true → diff (.FunctionSymbol n u) x = zero) ∧
    (∀ n u x, eqB (diff u x) zero = false →
      diff (.FunctionSymbol n u) x = .Derivative (.FunctionSymbol n u) [x]) ∧
    (∀ a xs x, diff (.Derivative a xs) x = .Derivative a (xs ++ [x])) ∧
    diff (function_symbol "f" (.Symbol "x")) "x" =
      .Derivative (.FunctionSymbol "f" (.Symbol "x")) ["x"] ∧
    diff (diff (function_symbol "f" (.Symbol "x")) "x") "x" =
      .Derivative (.FunctionSymbol "f" (.Symbol "x")) ["x", "x"] := by
  refine ⟨fun n u x h => ?_, fun n u x h => ?_, fun a xs x => rfl, by decide, by decide⟩ <;>
    simp [diff, h]

/-- Witness for C3: both branches of `FunctionSymbol::diff` exercised
at concrete inputs (a constant argument and the argument `x`). -/
theorem functionsymbol_derivative_diff_witness :
    (eqB (diff (.Integer 5) "x") zero = true ∧
      diff (.FunctionSymbol "f" (.Integer 5)) "x" = zero) ∧
    (eqB (diff (.Symbol "x") "x") zero = false ∧
      diff (.FunctionSymbol "f" (.Symbol "x")) "x" =
        .Derivative (.FunctionSymbol "f" (.Symbol "x")) ["x"]) :=
  ⟨⟨by decide, functionsymbol_derivative_diff.1 "f" (.Integer 5) "x" (by decide)⟩,
   ⟨by decide, functionsymbol_derivative_diff.2.1 "f" (.Symbol "x") "x" (by decide)⟩⟩

/-- C6 (confirmed): `Sin::diff` is `mul(cos(u), diff(u, x))` and
`Cos::diff` is `mul(mul(minus_one, sin(u)), diff(u, x))`; in particular,
for any symbol `x`, `diff(sin(x), x) == cos(x)` and
`diff(cos(x), x) == mul(minus_one, sin(x))`. -/
theorem sin_cos_diff :
    (∀ u x, diff (.Sin u) x = mul (cos u) (diff u x)) ∧
    (∀ u x, diff (.Cos u) x = mul (mul minus_one (sin u)) (diff u x)) ∧
    (∀ x : String, diff (sin (.Symbol x)) x = cos (.Symbol x)) ∧
    (∀ x : String, diff (cos (.Symbol x)) x = mul minus_one (sin (.Symbol x))) := by
  refine ⟨fun u x => rfl, fun u x => rfl, fun x => ?_, fun x => ?_⟩
  · simp [sin, cos, diff, eqB, zero, one, minus_one, mul, mulCanonical, operandsOf,
      numericValue, sortOps, insertSorted, qToBasic]
  · simp [sin, cos, diff, eqB, zero, one, minus_one, mul, mulCanonical, operandsOf,
      numericValue, sortOps, insertSorted, qToBasic]
    norm_num [insertSorted, qToBasic]

/-- C5 (confirmed): the canonical constructor `sin` collapses a
structurally-zero argument to the global `zero` node and otherwise
builds `Sin(arg)` unchanged; `cos` collapses it to `one` and otherwise
builds `Cos(arg)`; consequently any `Sin`/`Cos` node either constructor
returns satisfies its `is_canonical` predicate (it never wraps a
literal integer zero). -/
theorem sin_cos_constructor_canonical :
    (∀ a, eqB a zero = true → sin a = zero ∧ cos a = one) ∧
    (∀ a, eqB a zero = false → sin a = .Sin a ∧ cos a = .Cos a) ∧
    (∀ a b, sin a = .Sin b → sin_is_canonical b = true) ∧
    (∀ a b, cos a = .Cos b → cos_is_canonical b = true) := by
  refine ⟨fun a h => ?_, fun a h => ?_, fun a b h => ?_, fun a b h => ?_⟩
  · simp [sin, cos, h]
  · simp [sin, cos, h]
  · rw [sin] at h
    split at h
    · exact absurd h (by simp [zero])
    · cases h
      next hz =>
        match a, hz with
        | .Integer i, hz =>
          simp [eqB_zero_iff] at hz
          simp [sin_is_canonical, hz]
        | .Rational _ _, _ | .Symbol _, _ | .Mul _, _ | .Sin _, _ | .Cos _, _
        | .FunctionSymbol _ _, _ | .Derivative _ _, _ => rfl
  · rw [cos] at h
    split at h
    · exact absurd h (by simp [one])
    · cases h
      next hz =>
        match a, hz with
        | .Integer i, hz =>
          simp [eqB_zero_iff] at hz
          simp [cos_is_canonical, hz]
        | .Rational _ _, _ | .Symbol _, _ | .Mul _, _ | .Sin _, _ | .Cos _, _
        | .FunctionSymbol _ _, _ | .Derivative _ _, _ => rfl

/-- Witness for C5: `sin(0) = zero`, `cos(0) = one`, `sin(x) = Sin(x)`
with a canonical wrapped argument. -/
theorem sin_cos_constructor_canonical_witness :
    (sin (.Integer 0) = zero ∧ cos (.Integer 0) = one) ∧
    (sin (.Symbol "x") = .Sin (.Symbol "x") ∧ cos (.Symbol "x") = .Cos (.Symbol "x")) ∧
    sin_is_canonical (.Symbol "x") = true :=
  ⟨sin_cos_constructor_canonical.1 (.Integer 0) (by decide),
   sin_cos_constructor_canonical.2.1 (.Symbol "x") (by decide),
   sin_cos_constructor_canonical.2.2.1 (.Symbol "x") (.Symbol "x") (by decide)⟩

/-- C4 (confirmed): when the substituted argument of a `Sin` or `Cos`
node differs from the original (and the node itself is not a key of the
mapping), `subs` rebuilds the result through the canonical constructor
`sin`/`cos`, so simplification re-triggers; in particular, substituting
`zero` for the symbol `x` in `sin(x)` collapses to `zero`. -/
theorem subs_rebuilds_through_constructor :
    (∀ a d, lookupSubs d (.Sin a) = none → subs a d ≠ a →
      subs (.Sin a) d = sin (subs a d)) ∧
    (∀ a d, lookupSubs d (.Cos a) = none → subs a d ≠ a →
      subs (.Cos a) d = cos (subs a d)) ∧
    (∀ x : String, subs (sin (.Symbol x)) [(.Symbol x, zero)] = zero) := by
  refine ⟨fun a d h hne => ?_, fun a d h hne => ?_, fun x => ?_⟩
  · simp [subs, h, hne]
  · simp [subs, h, hne]
  · simp [sin, cos, eqB, subs, lookupSubs, zero]

/-- Witness for C4: substituting `one` for `x` changes the argument of
`sin(x)`, and the result goes through the constructor. -/
theorem subs_rebuilds_through_constructor_witness :
    lookupSubs [(Basic.Symbol "x", one)] (.Sin (.Symbol "x")) = none ∧
    subs (.Symbol "x") [(Basic.Symbol "x", one)] ≠ .Symbol "x" ∧
    subs (.Sin (.Symbol "x")) [(Basic.Symbol "x", one)] =
      sin (subs (.Symbol "x") [(Basic.Symbol "x", one)]) :=
  ⟨by decide, by decide,
   subs_rebuilds_through_constructor.1 (.Symbol "x") [(Basic.Symbol "x", one)]
     (by decide) (by decide)⟩

/-- C7 (counterexample): a mapping whose key is the node itself — under
which no CHILD changes — does not return the original node: `subs`
first looks the whole node up and returns the mapped value.  Here the
child `x` of `sin(x)` is unchanged by the mapping, yet
`subs(sin(x), ...)` returns `zero`. -/
theorem subs_whole_node_key_replaces :
    subs (.Symbol "x") [(Basic.Sin (.Symbol "x"), zero)] = .Symbol "x" ∧
    subs (.Sin (.Symbol "x")) [(Basic.Sin (.Symbol "x"), zero)] ≠ .Sin (.Symbol "x") := by
  exact ⟨by decide, by decide⟩

/-- The per-kind "no child actually changed" condition of the spec's
substitution step 3: every child's substitution returns the child
itself. -/
def childrenUnchanged (n : Basic) (d : SubsDict) : Prop :=
  match n with
  | .Mul l => subsList l d = l
  | .Sin a => subs a d = a
  | .Cos a => subs a d = a
  | .FunctionSymbol _ a => subs a d = a
  | .Derivative a _ => subs a d = a
  | _ => True

mutual

/-- Substitution with the empty mapping is the identity. -/
theorem subs_nil : ∀ n : Basic, subs n [] = n
  | .Integer _ => by simp [subs, lookupSubs]
  | .Rational _ _ => by simp [subs, lookupSubs]
  | .Symbol _ => by simp [subs, lookupSubs]
  | .Mul l => by simp [subs, lookupSubs, subsList_nil l]
  | .Sin a => by simp [subs, lookupSubs, subs_nil a]
  | .Cos a => by simp [subs, lookupSubs, subs_nil a]
  | .FunctionSymbol _ a => by simp [subs, lookupSubs, subs_nil a]
  | .Derivative a _ => by simp [subs, lookupSubs, subs_nil a]

/-- Substitution with the empty mapping is the identity on operand
lists. -/
theorem subsList_nil : ∀ l : List Basic, subsList l [] = l
  | [] => rfl
  | a :: as => by simp [subsList, subs_nil a, subsList_nil as]

end

/-- C7 (amended): `subs` with the empty mapping returns the original
node, and more generally `subs` with any mapping that does not have the
node itself as a key and under which no child actually changed returns
the original node itself. -/
theorem subs_unchanged_returns_original :
    (∀ n : Basic, subs n [] = n) ∧
    (∀ n d, lookupSubs d n = none → childrenUnchanged n d → subs n d = n) := by
  refine ⟨subs_nil, fun n d h hc => ?_⟩
  cases n <;> simp_all [subs, childrenUnchanged]

/-- Witness for C7: a nonempty mapping that touches neither `sin(y)`
nor its child leaves the node unchanged. -/
theorem subs_unchanged_returns_original_witness :
    lookupSubs [(Basic.Symbol "x", zero)] (.Sin (.Symbol "y")) = none ∧
    childrenUnchanged (.Sin (.Symbol "y")) [(Basic.Symbol "x", zero)] ∧
    subs (.Sin (.Symbol "y")) [(Basic.Symbol "x", zero)] = .Sin (.Symbol "y") :=
  ⟨by decide, by simp [childrenUnchanged, subs, lookupSubs, eqB],
   subs_unchanged_returns_original.2 (.Sin (.Symbol "y")) [(Basic.Symbol "x", zero)]
     (by decide) (by simp [childrenUnchanged, subs, lookupSubs, eqB])⟩

/-- C8 (confirmed): structural equality implies equal hashes — `eq`
holds exactly on identical trees and `__hash__` is a function of the
tree; in particular equal-named `FunctionSymbol` nodes with structurally
equal arguments hash equal, and `Derivative` nodes with structurally
equal expressions and identical variable lists hash equal. -/
theorem equals_implies_hash_eq :
    (∀ a b, eqB a b = true → hashB a = hashB b) ∧
    (∀ n a b, eqB a b = true → hashB (.FunctionSymbol n a) = hashB (.FunctionSymbol n b)) ∧
    (∀ a b xs, eqB a b = true → hashB (.Derivative a xs) = hashB (.Derivative b xs)) := by
  refine ⟨fun a b h => ?_, fun n a b h => ?_, fun a b xs h => ?_⟩ <;>
    rw [eqB_iff_eq] at h <;> rw [h]

/-- Witness for C8 at two structurally equal `FunctionSymbol` nodes. -/
theorem equals_implies_hash_eq_witness :
    eqB (Basic.FunctionSymbol "f" (.Symbol "x")) (.FunctionSymbol "f" (.Symbol "x")) = true ∧
    hashB (Basic.FunctionSymbol "f" (.Symbol "x")) = hashB (.FunctionSymbol "f" (.Symbol "x")) :=
  ⟨by decide,
   equals_implies_hash_eq.1 (.FunctionSymbol "f" (.Symbol "x"))
     (.FunctionSymbol "f" (.Symbol "x")) (by decide)⟩

/-- C9 (confirmed, spec-modelled): `rational_set` fails on a non-integer
operand or a zero denominator; on a valid pair it returns the exact
value `n / d` in lowest terms with a positive denominator, collapsed to
an `Integer` when the reduced denominator is 1; in particular
`rational(4,2) = integer(2)` and `rational(1,0)` fails. -/
theorem rational_set_spec :
    (∀ i j, ¬(is_a_Integer i = true ∧ is_a_Integer j = true) → rational_set i j = none) ∧
    (∀ n : Int, rational_set (.Integer n) (.Integer 0) = none) ∧
    (∀ n d : Int, d ≠ 0 →
      rational_set (.Integer n) (.Integer d) =
        some (if ((n : ℚ) / d).den = 1 then .Integer ((n : ℚ) / d).num
              else .Rational ((n : ℚ) / d).num (((n : ℚ) / d).den : Int))) ∧
    (∀ n d p q : Int, rational_set (.Integer n) (.Integer d) = some (.Rational p q) →
      0 < q ∧ Int.gcd p q = 1 ∧ (p : ℚ) / q = (n : ℚ) / d) ∧
    rational_set (.Integer 4) (.Integer 2) = some (.Integer 2) ∧
    rational_set (.Integer 1) (.Integer 0) = none := by
  have hchar : ∀ n d : Int, d ≠ 0 →
      rational_set (.Integer n) (.Integer d) =
        some (if ((n : ℚ) / d).den = 1 then .Integer ((n : ℚ) / d).num
              else .Rational ((n : ℚ) / d).num (((n : ℚ) / d).den : Int)) := by
    intro n d hd
    simp only [rational_set, if_neg hd]
    rw [Rat.divInt_eq_div]
  refine ⟨?_, ?_, hchar, ?_, by decide, by decide⟩
  · intro i j h
    match i, j with
    | .Integer _, .Integer _ => exact absurd ⟨rfl, rfl⟩ h
    | .Integer _, .Rational _ _ | .Integer _, .Symbol _ | .Integer _, .Mul _
    | .Integer _, .Sin _ | .Integer _, .Cos _ | .Integer _, .FunctionSymbol _ _
    | .Integer _, .Derivative _ _ => rfl
    | .Rational _ _, _ | .Symbol _, _ | .Mul _, _ | .Sin _, _ | .Cos _, _
    | .FunctionSymbol _ _, _ | .Derivative _ _, _ => rfl
  · intro n; simp [rational_set]
  · intro n d p q h
    by_cases hd : d = 0
    · subst hd; simp [rational_set] at h
    · rw [hchar n d hd] at h
      by_cases h1 : ((n : ℚ) / d).den = 1
      · simp [h1] at h
      · simp only [h1, if_false, Option.some.injEq, Basic.Rational.injEq] at h
        obtain ⟨hp, hq⟩ := h
        subst hp hq
        refine ⟨?_, ?_, ?_⟩
        · exact_mod_cast ((n : ℚ) / d).den_pos
        · simpa [Int.gcd] using ((n : ℚ) / d).reduced
        · push_cast
          exact Rat.num_div_den _

/-- Witness for C9: the valid-pair characterization applied at 4/2. -/
theorem rational_set_spec_witness :
    (2 : Int) ≠ 0 ∧
    rational_set (.Integer 4) (.Integer 2) =
      some (if (((4 : Int) : ℚ) / ((2 : Int) : ℚ)).den = 1
            then .Integer (((4 : Int) : ℚ) / ((2 : Int) : ℚ)).num
            else .Rational (((4 : Int) : ℚ) / ((2 : Int) : ℚ)).num
                   ((((4 : Int) : ℚ) / ((2 : Int) : ℚ)).den : Int)) :=
  ⟨by decide, rational_set_spec.2.2.1 4 2 (by decide)⟩

end CSymPy
